import Mathlib

/-!
Verification of the translation backend (`app.py`): the resolution pipeline
(`/api/translate`) and the contribution ingestion workflow (`/api/contribute`).

The embedding models:
  * Python string normalization (`.lower()`, `.strip()`) as character-list
    operations (`pyLower`, `pyStrip`);
  * the static dictionary `TEMPORARY_DICTIONARIES` as an association list
    from bucket key to an association list of phrase translations;
  * the fuzzy matcher `process.extractOne` as an abstract function parameter;
  * the Firestore document store as explicit association-list collections
    (`Store`), with `set` / `update` / filtered queries embedded as list
    operations.
-/

namespace TransBackend

/-! ## Python string normalization -/

/-- ASCII lower-casing of one character, as in `Char.toLower`
(the model of Python `str.lower` on the character range the app uses). -/
def lowerChar (c : Char) : Char := c.toLower

/-- The character-list form of Python `str.lower`. -/
def lowerL (l : List Char) : List Char := l.map lowerChar

/-- The character-list form of Python `str.strip`: drop whitespace from
both ends. -/
def stripL (l : List Char) : List Char :=
  ((l.dropWhile Char.isWhitespace).reverse.dropWhile Char.isWhitespace).reverse

/-- Model of Python `s.lower()`. -/
def pyLower (s : String) : String := String.mk (lowerL s.data)

/-- Model of Python `s.strip()`. -/
def pyStrip (s : String) : String := String.mk (stripL s.data)

/-- Model of Python `s.lower().strip()` (the normalization used by
`/api/translate`, `app.py` lines 56-58). -/
def lowerStrip (s : String) : String := pyStrip (pyLower s)

/-- Model of Python `s.strip().lower()` (the normalization used for
`source_text` in `/api/contribute`, `app.py` line 149). -/
def stripLower (s : String) : String := pyLower (pyStrip s)

/-! ## Association-list collections (the document store and the dictionary) -/

/-- Lookup a document by key in a keyed collection. -/
def lookupA {α : Type} (l : List (String × α)) (k : String) : Option α :=
  (l.find? (fun p => p.1 == k)).map (fun p => p.2)

/-- Firestore `document(k).set(v)`: replace the document if the key is
present, append it otherwise. -/
def setA {α : Type} (l : List (String × α)) (k : String) (v : α) :
    List (String × α) :=
  if (l.find? (fun p => p.1 == k)).isSome then
    l.map (fun p => if p.1 == k then (k, v) else p)
  else l ++ [(k, v)]

/-- Firestore `document(k).update(f)` applied to the stored document: the
atomic store-side transformation of the document under key `k`. -/
def updA {α : Type} (l : List (String × α)) (k : String) (f : α → α) :
    List (String × α) :=
  l.map (fun p => if p.1 == k then (p.1, f p.2) else p)

/-! ## Data model -/

/-- `TEMPORARY_DICTIONARIES`: bucket key to (source phrase to target
phrase) association list. -/
abbrev Dicts := List (String × List (String × String))

/-- A contribution record, with the exact fields built at
`app.py` lines 200-213. -/
structure Contribution where
  id : String
  source_text : String
  target_text : String
  source_language : String
  target_language : String
  source_example : String
  target_example : String
  status : String
  created_at : String
  updated_at : String
  votes : Int
  reviewed : Bool
deriving Repr, DecidableEq

/-- A `language_pairs` document (`app.py` lines 225-232), together with its
`translations` subcollection (line 242). -/
structure LangPairDoc where
  source_language : String
  target_language : String
  total_contributions : Int
  pending_contributions : Int
  validated_contributions : Int
  last_updated : String
  translations : List (String × Contribution)
deriving Repr, DecidableEq

/-- The Firestore state visible to this core: the `contributions`
collection and the `language_pairs` collection. -/
structure Store where
  contributions : List (String × Contribution)
  language_pairs : List (String × LangPairDoc)
deriving Repr, DecidableEq

/-- The fuzzy matcher `process.extractOne`: query and candidate keys to
(best match, score). Abstract collaborator. -/
abbrev Matcher := String → List String → String × Nat

/-! ## Resolution pipeline (`/api/translate`) -/

/-- Result of one resolution request, one constructor per `return` branch
of `translate` in `app.py`. -/
inductive TranslateResult where
  | validationError (msg : String)
  | notSupported (translation : String) (supportedPairs : List String)
  | exact (originalText translation sourceLang targetLang : String)
  | fuzzy (originalText translation : String) (score : Nat)
      (matchedWord : String) (sourceLang targetLang : String)
  | pending (originalText translation sourceLang targetLang : String)
  | noMatch (originalText sourceLang targetLang : String)
deriving Repr, DecidableEq

/-- The pending-contribution query of `app.py` lines 107-111: first
`contributions` document matching text, languages and status `pending`. -/
def pendingQuery (store : Store) (text source_lang target_lang : String) :
    Option Contribution :=
  (store.contributions.map (fun p => p.2)).find? (fun c =>
    c.source_text == text && c.source_language == source_lang &&
    c.target_language == target_lang && c.status == "pending")

/-- The pending tier and the final no-match branch of the pipeline
(`app.py` lines 105-132). -/
def pendingStep (store : Store) (text source_lang target_lang : String) :
    TranslateResult :=
  match pendingQuery store text source_lang target_lang with
  | Option.some c =>
      TranslateResult.pending text c.target_text source_lang target_lang
  | Option.none => TranslateResult.noMatch text source_lang target_lang

/-- The body of `translate` after input normalization
(`app.py` lines 60-132). -/
def translateCore (dicts : Dicts) (extractOne : Matcher) (store : Store)
    (source_lang target_lang text : String) : TranslateResult :=
  if text = "" then
    TranslateResult.validationError "No text provided for translation"
  else if source_lang = "" ∨ target_lang = "" then
    TranslateResult.validationError "Source or target language not specified"
  else
    match lookupA dicts (source_lang ++ "-" ++ target_lang) with
    | Option.none =>
        TranslateResult.notSupported
          ("Translation between " ++ source_lang ++ " and " ++ target_lang ++
            " is not currently supported")
          (dicts.map (fun p => p.1))
    | Option.some dictionary =>
        match lookupA dictionary text with
        | Option.some tr =>
            TranslateResult.exact text tr source_lang target_lang
        | Option.none =>
            if dictionary.isEmpty then
              pendingStep store text source_lang target_lang
            else
              let r := extractOne text (dictionary.map (fun p => p.1))
              if 70 ≤ r.2 then
                TranslateResult.fuzzy text ((lookupA dictionary r.1).getD "")
                  r.2 r.1 source_lang target_lang
              else pendingStep store text source_lang target_lang

/-- The `/api/translate` handler: normalize the three inputs
(`app.py` lines 56-58), then run the pipeline. -/
def translate (dicts : Dicts) (extractOne : Matcher) (store : Store)
    (sourceLang targetLang text : String) : TranslateResult :=
  translateCore dicts extractOne store (lowerStrip sourceLang)
    (lowerStrip targetLang) (lowerStrip text)

/-! ## Contribution ingestion (`/api/contribute`) -/

/-- Result of one contribution request, one constructor per `return`
branch of `contribute` in `app.py`. -/
inductive ContributeResult where
  | validationError (msg : String)
  | duplicate (existing_translation : String)
  | success (contribution_id status language_pair : String)
deriving Repr, DecidableEq

/-- Python truthiness of an optional string: `None` and the empty string
are falsy. -/
def truthy (o : Option String) : Bool :=
  match o with
  | Option.none => false
  | Option.some s => decide (s ≠ "")

/-- The dictionary arm of the duplicate check (`app.py` lines 171-174). -/
def dictCheck (dicts : Dicts) (dict_key source_text : String) :
    Option String :=
  match lookupA dicts dict_key with
  | Option.some d => lookupA d source_text
  | Option.none => Option.none

/-- The validated-contribution query of `app.py` lines 178-183. -/
def validatedQuery (store : Store)
    (source_text source_language target_language : String) :
    Option Contribution :=
  (store.contributions.map (fun p => p.2)).find? (fun c =>
    c.source_text == source_text && c.source_language == source_language &&
    c.target_language == target_language && c.status == "validated")

/-- The contribution record built at `app.py` lines 200-213. -/
def mkContribution (cid timestamp source_text target_text source_language
    target_language source_example target_example : String) : Contribution :=
  ⟨cid, source_text, target_text, source_language, target_language,
    source_example, target_example, "pending", timestamp, timestamp, 0, false⟩

/-- The fresh `language_pairs` document created at `app.py`
lines 225-232. -/
def newLangPairDoc (source_language target_language timestamp : String) :
    LangPairDoc :=
  ⟨source_language, target_language, 0, 0, 0, timestamp, []⟩

/-- The atomic counter update of `app.py` lines 235-239:
`firestore.Increment(1)` on both counters plus `last_updated`. -/
def bumpCounters (timestamp : String) (lp : LangPairDoc) : LangPairDoc :=
  ⟨lp.source_language, lp.target_language, lp.total_contributions + 1,
    lp.pending_contributions + 1, lp.validated_contributions, timestamp,
    lp.translations⟩

/-- The subcollection write of `app.py` line 242. -/
def addTranslationCopy (cid : String) (c : Contribution) (lp : LangPairDoc) :
    LangPairDoc :=
  ⟨lp.source_language, lp.target_language, lp.total_contributions,
    lp.pending_contributions, lp.validated_contributions, lp.last_updated,
    setA lp.translations cid c⟩

/-- The duplicate-detection value `existing_translation` of `app.py`
lines 168-186, built from the dictionary check and, when that is falsy,
the validated-store query. -/
def existingTranslation (dicts : Dicts) (store : Store)
    (dict_key source_text source_language target_language : String) :
    Option String :=
  if truthy (dictCheck dicts dict_key source_text) then
    dictCheck dicts dict_key source_text
  else
    match validatedQuery store source_text source_language
        target_language with
    | Option.some c => Option.some c.target_text
    | Option.none => dictCheck dicts dict_key source_text

/-- Write 1 (`app.py` line 218): the main `contributions` document. -/
def writeContribution (store : Store) (cid : String) (c : Contribution) :
    Store :=
  ⟨setA store.contributions cid c, store.language_pairs⟩

/-- Write 2a (`app.py` lines 224-232): create the language-pair document
with zeroed counters when it does not exist. -/
def ensureLangPair (store : Store)
    (dict_key source_language target_language timestamp : String) : Store :=
  if (lookupA store.language_pairs dict_key).isSome then store
  else ⟨store.contributions,
    setA store.language_pairs dict_key
      (newLangPairDoc source_language target_language timestamp)⟩

/-- Write 2b (`app.py` lines 235-239): the atomic counter increments. -/
def incrementCounters (store : Store) (dict_key timestamp : String) :
    Store :=
  ⟨store.contributions,
    updA store.language_pairs dict_key (bumpCounters timestamp)⟩

/-- Write 2c (`app.py` line 242): the denormalized copy in the
`translations` subcollection. -/
def writeTranslationCopy (store : Store) (dict_key cid : String)
    (c : Contribution) : Store :=
  ⟨store.contributions,
    updA store.language_pairs dict_key (addTranslationCopy cid c)⟩

/-- The body of `contribute` after input normalization
(`app.py` lines 158-254), with the generated uuid and timestamp passed in
as parameters. -/
def contributeCore (dicts : Dicts) (store : Store) (cid timestamp : String)
    (source_text target_text source_language target_language source_example
      target_example : String) : ContributeResult × Store :=
  if source_text = "" ∨ target_text = "" then
    (ContributeResult.validationError
      "Source text and target text are required", store)
  else if source_language = "" ∨ target_language = "" then
    (ContributeResult.validationError
      "Source language and target language are required", store)
  else if truthy (existingTranslation dicts store
      (source_language ++ "-" ++ target_language) source_text
      source_language target_language) then
    (ContributeResult.duplicate
      ((existingTranslation dicts store
        (source_language ++ "-" ++ target_language) source_text
        source_language target_language).getD ""), store)
  else
    (ContributeResult.success cid "pending"
      (source_language ++ "-" ++ target_language),
      writeTranslationCopy
        (incrementCounters
          (ensureLangPair
            (writeContribution store cid
              (mkContribution cid timestamp source_text target_text
                source_language target_language source_example
                target_example))
            (source_language ++ "-" ++ target_language) source_language
            target_language timestamp)
          (source_language ++ "-" ++ target_language) timestamp)
        (source_language ++ "-" ++ target_language) cid
        (mkContribution cid timestamp source_text target_text
          source_language target_language source_example target_example))

/-- The `/api/contribute` handler: normalize the six inputs
(`app.py` lines 149-156), then run the ingestion body. -/
def contribute (dicts : Dicts) (store : Store) (cid timestamp : String)
    (sourceText targetText sourceLanguage targetLanguage sourceExample
      targetExample : String) : ContributeResult × Store :=
  contributeCore dicts store cid timestamp (stripLower sourceText)
    (pyStrip targetText) (lowerStrip sourceLanguage)
    (lowerStrip targetLanguage) (pyStrip sourceExample)
    (pyStrip targetExample)

/-! ## Language-pair aggregate counters -/

/-- The Language Pair Aggregate invariant: every `language_pairs` document
has `pending_contributions ≤ total_contributions`. -/
def aggInv (s : Store) : Prop :=
  ∀ p ∈ s.language_pairs,
    p.2.pending_contributions ≤ p.2.total_contributions

/-- The three counters of the aggregate document for key `k`, all 0 when
the document does not exist. -/
def aggTotals (s : Store) (k : String) : Int × Int × Int :=
  match lookupA s.language_pairs k with
  | Option.none => (0, 0, 0)
  | Option.some lp => (lp.total_contributions, lp.pending_contributions,
      lp.validated_contributions)

/-! ## Denormalized-copy consistency -/

/-- The language-pair key under which a contribution is denormalized. -/
def pairKey (c : Contribution) : String :=
  c.source_language ++ "-" ++ c.target_language

/-- Consistency of the denormalized copies: every entry of a
`translations` subcollection is keyed by its record id, belongs to the
language-pair document of its own pair key, and equals the primary record
under the same id; conversely every primary record has its copy in its
pair's subcollection under the same id. -/
def Sync (s : Store) : Prop :=
  (∀ q ∈ s.language_pairs, ∀ r ∈ q.2.translations,
    lookupA s.contributions r.1 = Option.some r.2 ∧ r.1 = r.2.id ∧
      q.1 = pairKey r.2) ∧
  (∀ r ∈ s.contributions, r.1 = r.2.id ∧
    ∃ lp, lookupA s.language_pairs (pairKey r.2) = Option.some lp ∧
      lookupA lp.translations r.1 = Option.some r.2)

/-! ## Concurrency model of aggregate creation and increment

`app.py` lines 224-239 run, per request: an existence check
(`lang_pair_ref.get().exists`), a conditional zero-initializing
`set`, and an atomic `update` with `firestore.Increment(1)`. Each of the
three store operations is atomic; the sequence is not. -/

/-- The aggregate document of one previously-unseen language pair:
`none` when absent, otherwise (total, pending) counters. -/
abbrev AggDoc := Option (Int × Int)

/-- Progress of one request through `app.py` lines 224-239. -/
inductive TPhase where
  | start
  | creating (sawExists : Bool)
  | incrementing
  | done
deriving Repr, DecidableEq

/-- One atomic step of one request against the shared document. -/
def threadStep (s : AggDoc) (t : TPhase) : AggDoc × TPhase :=
  match t with
  | TPhase.start => (s, TPhase.creating s.isSome)
  | TPhase.creating true => (s, TPhase.incrementing)
  | TPhase.creating false => (Option.some (0, 0), TPhase.incrementing)
  | TPhase.incrementing =>
      (s.map (fun p => (p.1 + 1, p.2 + 1)), TPhase.done)
  | TPhase.done => (s, TPhase.done)

/-- Run a schedule: at each tick the named request executes its next
atomic operation (out-of-range names are skipped). -/
def runSched (sched : List Nat) (s : AggDoc) (ts : List TPhase) :
    AggDoc × List TPhase :=
  match sched with
  | [] => (s, ts)
  | i :: rest =>
    match ts[i]? with
    | Option.none => runSched rest s ts
    | Option.some t =>
        runSched rest (threadStep s t).1 (ts.set i (threadStep s t).2)

/-- All requests have completed. -/
def allDone (ts : List TPhase) : Bool :=
  ts.all (fun t => t == TPhase.done)

/-- C7 as stated: n concurrent first-time contributions to the same
previously-unseen pair always leave the one aggregate record with both
counters equal to n, whatever the interleaving. -/
def ConcurrentCounterClaim (n : Nat) : Prop :=
  ∀ sched : List Nat,
    allDone (runSched sched Option.none
      (List.replicate n TPhase.start)).2 = true →
    (runSched sched Option.none (List.replicate n TPhase.start)).1 =
      Option.some ((n : Int), (n : Int))

/-- The effect of one full uninterrupted request on the document. -/
def runThreadFully (s : AggDoc) : AggDoc :=
  match s with
  | Option.none => Option.some (1, 1)
  | Option.some p => Option.some (p.1 + 1, p.2 + 1)

def iterFully (n : Nat) (s : AggDoc) : AggDoc :=
  match n with
  | 0 => s
  | Nat.succ m => iterFully m (runThreadFully s)

def seqSchedAux (first n : Nat) : List Nat :=
  match n with
  | 0 => []
  | Nat.succ m => first :: first :: first :: seqSchedAux (first + 1) m

/-- The fully serialized schedule: request 0's three operations, then
request 1's three operations, and so on. -/
def seqSched (n : Nat) : List Nat := seqSchedAux 0 n

/-! ## Normalization lemmas -/

theorem toNat_ofNat_of_valid {n : Nat} (h : n.isValidChar) :
    (Char.ofNat n).toNat = n := by
  simp [Char.ofNat, h, Char.ofNatAux, Char.toNat, UInt32.toNat,
    BitVec.toNat_ofNatLt]

theorem lowerChar_idem (c : Char) : lowerChar (lowerChar c) = lowerChar c := by
  unfold lowerChar Char.toLower
  by_cases h : c.toNat ≥ 65 ∧ c.toNat ≤ 90
  · rw [if_pos h]
    have hv : Nat.isValidChar (c.toNat + 32) := Or.inl (by omega)
    have ht : (Char.ofNat (c.toNat + 32)).toNat = c.toNat + 32 :=
      toNat_ofNat_of_valid hv
    rw [if_neg]
    rw [ht]
    omega
  · rw [if_neg h, if_neg h]

theorem dropWhile_idem {α : Type} (p : α → Bool) (l : List α) :
    (l.dropWhile p).dropWhile p = l.dropWhile p := by
  induction l with
  | nil => rfl
  | cons a t ih =>
    by_cases h : p a
    · simp [List.dropWhile_cons, h, ih]
    · simp [List.dropWhile_cons, h]

theorem dropWhile_head_false {α : Type} (p : α → Bool) (l : List α) {a : α}
    {t : List α} (h : l.dropWhile p = a :: t) : p a = false := by
  induction l with
  | nil => simp at h
  | cons b s ih =>
    by_cases hb : p b
    · rw [List.dropWhile_cons, if_pos hb] at h
      exact ih h
    · rw [List.dropWhile_cons, if_neg hb] at h
      cases h
      exact Bool.of_not_eq_true hb

theorem getLast?_dropWhile {α : Type} (p : α → Bool) (l : List α)
    (h : l.dropWhile p ≠ []) : (l.dropWhile p).getLast? = l.getLast? := by
  induction l with
  | nil => simp at h
  | cons a t ih =>
    by_cases ha : p a
    · rw [List.dropWhile_cons, if_pos ha] at h ⊢
      have ht : t ≠ [] := by
        intro he
        rw [he] at h
        simp at h
      rw [ih h]
      cases t with
      | nil => exact absurd rfl ht
      | cons b s => simp [List.getLast?_cons_cons]
    · rw [List.dropWhile_cons, if_neg ha]

theorem stripL_head_false {α : Type} (p : α → Bool) (l : List α) {a : α}
    {t : List α}
    (h : ((l.dropWhile p).reverse.dropWhile p).reverse = a :: t) :
    p a = false := by
  set A := l.dropWhile p with hA
  set B := A.reverse.dropWhile p with hB
  have hBne : B ≠ [] := by
    intro he
    rw [he] at h
    simp at h
  have hAne : A ≠ [] := by
    intro he
    rw [he] at hB
    simp at hB
    exact hBne hB
  obtain ⟨a0, t0, hA0⟩ := List.exists_cons_of_ne_nil hAne
  have ha0 : p a0 = false := dropWhile_head_false p l (hA ▸ hA0)
  have hlast : B.getLast? = some a0 := by
    rw [hB, getLast?_dropWhile p A.reverse (hB ▸ hBne), List.getLast?_reverse,
      hA0]
    rfl
  have hhead : (a :: t).head? = some a0 := by
    rw [← h, List.head?_reverse, hlast]
  simp at hhead
  rw [hhead]
  exact ha0

theorem stripL_stripL (l : List Char) : stripL (stripL l) = stripL l := by
  unfold stripL
  set w := Char.isWhitespace with hw
  set m := ((l.dropWhile w).reverse.dropWhile w).reverse with hm
  have h1 : m.dropWhile w = m := by
    cases hc : m with
    | nil => rfl
    | cons a t =>
      have := stripL_head_false w l (hm ▸ hc)
      rw [List.dropWhile_cons, if_neg (by simp [this])]
  rw [h1, hm]
  rw [List.reverse_reverse]
  rw [dropWhile_idem]

theorem mem_of_mem_stripL {c : Char} {l : List Char} (h : c ∈ stripL l) :
    c ∈ l := by
  unfold stripL at h
  rw [List.mem_reverse] at h
  have h2 := (List.dropWhile_sublist _).subset h
  rw [List.mem_reverse] at h2
  exact (List.dropWhile_sublist _).subset h2

theorem lowerL_stripL_lowerL (l : List Char) :
    lowerL (stripL (lowerL l)) = stripL (lowerL l) := by
  have hfix : ∀ c ∈ stripL (lowerL l), lowerChar c = c := by
    intro c hc
    have hm := mem_of_mem_stripL hc
    unfold lowerL at hm
    obtain ⟨c0, _, rfl⟩ := List.mem_map.mp hm
    exact lowerChar_idem c0
  show (stripL (lowerL l)).map lowerChar = stripL (lowerL l)
  rw [List.map_congr_left hfix]
  exact List.map_id _

theorem lowerStrip_idem (s : String) :
    lowerStrip (lowerStrip s) = lowerStrip s := by
  show String.mk (stripL (lowerL (stripL (lowerL s.data)))) =
    String.mk (stripL (lowerL s.data))
  rw [lowerL_stripL_lowerL, stripL_stripL]

/-! ## Association-list lemmas -/

theorem lookupA_cons {α : Type} (p : String × α) (l : List (String × α))
    (k : String) :
    lookupA (p :: l) k = if p.1 = k then Option.some p.2 else lookupA l k := by
  by_cases h : p.1 = k
  · simp [lookupA, List.find?_cons, h]
  · simp [lookupA, List.find?_cons, h]

theorem lookupA_eq_none_iff {α : Type} {l : List (String × α)} {k : String} :
    lookupA l k = Option.none ↔ ∀ p ∈ l, p.1 ≠ k := by
  induction l with
  | nil => simp [lookupA]
  | cons p t ih =>
    rw [lookupA_cons]
    by_cases h : p.1 = k
    · simp [h]
    · simp [h, ih]

theorem mem_of_lookupA_eq_some {α : Type} {l : List (String × α)}
    {k : String} {v : α} (h : lookupA l k = Option.some v) : (k, v) ∈ l := by
  induction l with
  | nil => simp [lookupA] at h
  | cons p t ih =>
    rw [lookupA_cons] at h
    by_cases hp : p.1 = k
    · rw [if_pos hp] at h
      cases h
      have hp2 : (k, p.2) = p := by
        obtain ⟨a, b⟩ := p
        simp only at hp ⊢
        rw [hp]
      rw [hp2]
      exact List.mem_cons_self _ _
    · rw [if_neg hp] at h
      exact List.mem_cons_of_mem _ (ih h)

theorem lookupA_append_left {α : Type} {l : List (String × α)} {k : String}
    {v : α} (l2 : List (String × α)) (h : lookupA l k = Option.some v) :
    lookupA (l ++ l2) k = Option.some v := by
  induction l with
  | nil => simp [lookupA] at h
  | cons p t ih =>
    rw [lookupA_cons] at h
    rw [List.cons_append, lookupA_cons]
    by_cases hp : p.1 = k
    · rw [if_pos hp] at h ⊢
      exact h
    · rw [if_neg hp] at h ⊢
      exact ih h

theorem lookupA_append_right {α : Type} {l : List (String × α)} {k : String}
    (l2 : List (String × α)) (h : lookupA l k = Option.none) :
    lookupA (l ++ l2) k = lookupA l2 k := by
  induction l with
  | nil => simp
  | cons p t ih =>
    rw [lookupA_cons] at h
    rw [List.cons_append, lookupA_cons]
    by_cases hp : p.1 = k
    · rw [if_pos hp] at h
      cases h
    · rw [if_neg hp] at h ⊢
      exact ih h

theorem setA_of_lookupA_none {α : Type} {l : List (String × α)} {k : String}
    (v : α) (h : lookupA l k = Option.none) : setA l k v = l ++ [(k, v)] := by
  unfold setA
  rw [if_neg]
  intro hs
  obtain ⟨p, hp⟩ := Option.isSome_iff_exists.mp hs
  have hmem := List.mem_of_find?_eq_some hp
  have hkey : p.1 = k := by
    have := List.find?_some hp
    exact eq_of_beq this
  exact (lookupA_eq_none_iff.mp h p hmem) hkey

theorem lookupA_replaceAll_self {α : Type} (l : List (String × α))
    (k : String) (v : α) (hs : (l.find? (fun p => p.1 == k)).isSome) :
    lookupA (l.map (fun p => if p.1 == k then (k, v) else p)) k =
      Option.some v := by
  induction l with
  | nil => simp at hs
  | cons p t ih =>
    rw [List.map_cons]
    by_cases hp : p.1 = k
    · rw [if_pos (beq_iff_eq.mpr hp), lookupA_cons, if_pos rfl]
    · rw [if_neg (by simp [hp]), lookupA_cons, if_neg hp]
      apply ih
      have hb : (p.1 == k) = false := by simp [hp]
      simp only [List.find?_cons, hb] at hs
      exact hs

theorem lookupA_replaceAll_ne {α : Type} (l : List (String × α))
    (k : String) (v : α) {k2 : String} (h : k2 ≠ k) :
    lookupA (l.map (fun p => if p.1 == k then (k, v) else p)) k2 =
      lookupA l k2 := by
  induction l with
  | nil => rfl
  | cons p t ih =>
    rw [List.map_cons]
    by_cases hp : p.1 = k
    · rw [if_pos (beq_iff_eq.mpr hp), lookupA_cons, lookupA_cons,
        if_neg (fun he => h he.symm), if_neg (fun he => h (hp ▸ he).symm)]
      exact ih
    · rw [if_neg (by simp [hp]), lookupA_cons, lookupA_cons]
      by_cases hpk2 : p.1 = k2
      · rw [if_pos hpk2, if_pos hpk2]
      · rw [if_neg hpk2, if_neg hpk2]
        exact ih

theorem lookupA_setA_self {α : Type} (l : List (String × α)) (k : String)
    (v : α) : lookupA (setA l k v) k = Option.some v := by
  unfold setA
  by_cases hs : (l.find? (fun p => p.1 == k)).isSome
  · rw [if_pos hs]
    exact lookupA_replaceAll_self l k v hs
  · rw [if_neg hs]
    have hn : lookupA l k = Option.none := by
      unfold lookupA
      rw [Option.not_isSome_iff_eq_none.mp hs]
      rfl
    rw [lookupA_append_right _ hn, lookupA_cons, if_pos rfl]

theorem lookupA_setA_ne {α : Type} (l : List (String × α)) (k : String)
    (v : α) {k2 : String} (h : k2 ≠ k) :
    lookupA (setA l k v) k2 = lookupA l k2 := by
  unfold setA
  by_cases hs : (l.find? (fun p => p.1 == k)).isSome
  · rw [if_pos hs]
    exact lookupA_replaceAll_ne l k v h
  · rw [if_neg hs]
    by_cases h2 : lookupA l k2 = Option.none
    · rw [lookupA_append_right _ h2, h2, lookupA_cons,
        if_neg (fun he => h he.symm)]
      rfl
    · obtain ⟨w, hw⟩ := Option.ne_none_iff_exists.mp h2
      rw [← hw, lookupA_append_left _ hw.symm]

theorem lookupA_updA_self {α : Type} (l : List (String × α)) (k : String)
    (f : α → α) : lookupA (updA l k f) k = (lookupA l k).map f := by
  induction l with
  | nil => rfl
  | cons p t ih =>
    unfold updA
    rw [List.map_cons]
    by_cases hp : p.1 = k
    · rw [if_pos (beq_iff_eq.mpr hp), lookupA_cons, lookupA_cons, if_pos hp,
        if_pos hp]
      rfl
    · rw [if_neg (by simp [hp]), lookupA_cons, lookupA_cons, if_neg hp,
        if_neg hp]
      exact ih

theorem lookupA_updA_ne {α : Type} (l : List (String × α)) (k : String)
    (f : α → α) {k2 : String} (h : k2 ≠ k) :
    lookupA (updA l k f) k2 = lookupA l k2 := by
  induction l with
  | nil => rfl
  | cons p t ih =>
    unfold updA
    rw [List.map_cons]
    by_cases hp : p.1 = k
    · have hne : p.1 ≠ k2 := fun he => h (he ▸ hp)
      rw [if_pos (beq_iff_eq.mpr hp), lookupA_cons, lookupA_cons,
        if_neg hne, if_neg hne]
      exact ih
    · rw [if_neg (by simp [hp]), lookupA_cons, lookupA_cons]
      by_cases hpk2 : p.1 = k2
      · rw [if_pos hpk2, if_pos hpk2]
      · rw [if_neg hpk2, if_neg hpk2]
        exact ih

/-! ## Claims about the resolution pipeline -/

/-- C1: for every resolution request whose normalized text is a key of the
dictionary bucket for the computed language-pair key, the pipeline returns
that bucket's translation with matchType exact; no later tier is evaluated
(the matcher is universally quantified, so the result is never fuzzy even
when the text is within fuzzy range of another key). -/
theorem exact_tier_wins (dicts : Dicts) (m : Matcher) (store : Store)
    (sourceLang targetLang text sl tl tx : String)
    (d : List (String × String)) (tr : String)
    (hsl : lowerStrip sourceLang = sl) (htl : lowerStrip targetLang = tl)
    (htx : lowerStrip text = tx)
    (htx0 : tx ≠ "") (hsl0 : sl ≠ "") (htl0 : tl ≠ "")
    (hd : lookupA dicts (sl ++ "-" ++ tl) = Option.some d)
    (hk : lookupA d tx = Option.some tr) :
    translate dicts m store sourceLang targetLang text =
      TranslateResult.exact tx tr sl tl := by
  unfold translate
  rw [hsl, htl, htx]
  simp [translateCore, htx0, hsl0, htl0, hd, hk]

theorem exact_tier_wins_witness :
    translate [("en-fr", [("hello", "bonjour"), ("helo", "mauvais")])]
      (fun _ _ => ("helo", 95)) ⟨[], []⟩ "EN " "fr" " Hello " =
      TranslateResult.exact "hello" "bonjour" "en" "fr" :=
  exact_tier_wins _ _ _ _ _ _ "en" "fr" "hello"
    [("hello", "bonjour"), ("helo", "mauvais")] "bonjour"
    (by decide) (by decide) (by decide) (by decide) (by decide) (by decide)
    (by decide) (by decide)

/-- C2: a request that reaches the fuzzy tier (bucket present and
non-empty, exact tier missed) returns the fuzzy result exactly when the
matcher score is at least 70; the translation is that of the matched word,
and a score below 70 falls through to the pending tier. -/
theorem fuzzy_threshold (dicts : Dicts) (m : Matcher) (store : Store)
    (sourceLang targetLang text sl tl tx : String)
    (d : List (String × String)) (best : String) (score : Nat) (tr : String)
    (hsl : lowerStrip sourceLang = sl) (htl : lowerStrip targetLang = tl)
    (htx : lowerStrip text = tx)
    (htx0 : tx ≠ "") (hsl0 : sl ≠ "") (htl0 : tl ≠ "")
    (hd : lookupA dicts (sl ++ "-" ++ tl) = Option.some d)
    (hne : d.isEmpty = false)
    (hmiss : lookupA d tx = Option.none)
    (hm : m tx (d.map (fun p => p.1)) = (best, score))
    (htr : lookupA d best = Option.some tr) :
    (70 ≤ score →
      translate dicts m store sourceLang targetLang text =
        TranslateResult.fuzzy tx tr score best sl tl) ∧
    (score < 70 →
      translate dicts m store sourceLang targetLang text =
        pendingStep store tx sl tl) := by
  constructor
  · intro hscore
    unfold translate
    rw [hsl, htl, htx]
    simp [translateCore, htx0, hsl0, htl0, hd, hne, hmiss, hm, htr, hscore]
  · intro hscore
    unfold translate
    rw [hsl, htl, htx]
    simp [translateCore, htx0, hsl0, htl0, hd, hne, hmiss, hm,
      Nat.not_le.mpr hscore]

theorem fuzzy_threshold_witness :
    (translate [("en-fr", [("hello", "bonjour")])] (fun _ _ => ("hello", 70))
        ⟨[], []⟩ "en" "fr" "helo" =
      TranslateResult.fuzzy "helo" "bonjour" 70 "hello" "en" "fr") ∧
    (translate [("en-fr", [("hello", "bonjour")])] (fun _ _ => ("hello", 69))
        ⟨[], []⟩ "en" "fr" "helo" =
      pendingStep ⟨[], []⟩ "helo" "en" "fr") :=
  ⟨(fuzzy_threshold _ _ _ _ _ _ "en" "fr" "helo" [("hello", "bonjour")]
      "hello" 70 "bonjour" (by decide) (by decide) (by decide) (by decide)
      (by decide) (by decide) (by decide) (by decide) (by decide) (by decide)
      (by decide)).1 (by decide),
   (fuzzy_threshold _ _ _ _ _ _ "en" "fr" "helo" [("hello", "bonjour")]
      "hello" 69 "bonjour" (by decide) (by decide) (by decide) (by decide)
      (by decide) (by decide) (by decide) (by decide) (by decide) (by decide)
      (by decide)).2 (by decide)⟩

/-- C5: a validated request whose computed bucket key has no dictionary
bucket yields the not-supported result listing all supported bucket keys,
as a normal outcome (a dedicated constructor, never a server error). -/
theorem unsupported_pair (dicts : Dicts) (m : Matcher) (store : Store)
    (sourceLang targetLang text sl tl tx : String)
    (hsl : lowerStrip sourceLang = sl) (htl : lowerStrip targetLang = tl)
    (htx : lowerStrip text = tx)
    (htx0 : tx ≠ "") (hsl0 : sl ≠ "") (htl0 : tl ≠ "")
    (hd : lookupA dicts (sl ++ "-" ++ tl) = Option.none) :
    translate dicts m store sourceLang targetLang text =
      TranslateResult.notSupported
        ("Translation between " ++ sl ++ " and " ++ tl ++
          " is not currently supported")
        (dicts.map (fun p => p.1)) := by
  unfold translate
  rw [hsl, htl, htx]
  simp [translateCore, htx0, hsl0, htl0, hd]

theorem unsupported_pair_witness :
    translate [("en-fr", [("hello", "bonjour")])] (fun _ _ => ("hello", 99))
      ⟨[], []⟩ "en" "de" "hello" =
      TranslateResult.notSupported
        "Translation between en and de is not currently supported"
        ["en-fr"] :=
  unsupported_pair _ _ _ _ _ _ "en" "de" "hello" (by decide) (by decide)
    (by decide) (by decide) (by decide) (by decide) (by decide)

/-- C9: resolution is invariant under input normalization; resolving with
raw inputs equals resolving with their trimmed, lower-cased forms. -/
theorem translate_norm_invariant (dicts : Dicts) (m : Matcher)
    (store : Store) (sourceLang targetLang text : String) :
    translate dicts m store sourceLang targetLang text =
      translate dicts m store (lowerStrip sourceLang)
        (lowerStrip targetLang) (lowerStrip text) := by
  unfold translate
  rw [lowerStrip_idem, lowerStrip_idem, lowerStrip_idem]

/-! ## Claims about contribution ingestion -/

theorem contribute_writes_contributions (store : Store)
    (k sl tl ts cid : String) (c : Contribution) :
    Store.contributions (writeTranslationCopy (incrementCounters
        (ensureLangPair (writeContribution store cid c) k sl tl ts) k ts)
        k cid c) = setA store.contributions cid c := by
  unfold writeTranslationCopy incrementCounters ensureLangPair
    writeContribution
  split <;> rfl

/-- C3: duplicates are checked dictionary first (for every store state),
then the validated-store query; either hit fails with a duplicate result
carrying the existing translation text, and the store is returned
unchanged (no write to any collection). -/
theorem duplicate_rejected (dicts : Dicts) (store : Store)
    (cid timestamp sourceText targetText sourceLanguage targetLanguage
      sourceExample targetExample st tt sl tl : String)
    (hst : stripLower sourceText = st) (htt : pyStrip targetText = tt)
    (hsl : lowerStrip sourceLanguage = sl)
    (htl : lowerStrip targetLanguage = tl)
    (hst0 : st ≠ "") (htt0 : tt ≠ "") (hsl0 : sl ≠ "") (htl0 : tl ≠ "") :
    (∀ tr, dictCheck dicts (sl ++ "-" ++ tl) st = Option.some tr → tr ≠ "" →
      contribute dicts store cid timestamp sourceText targetText
          sourceLanguage targetLanguage sourceExample targetExample =
        (ContributeResult.duplicate tr, store)) ∧
    (∀ c, truthy (dictCheck dicts (sl ++ "-" ++ tl) st) = false →
      validatedQuery store st sl tl = Option.some c → c.target_text ≠ "" →
      contribute dicts store cid timestamp sourceText targetText
          sourceLanguage targetLanguage sourceExample targetExample =
        (ContributeResult.duplicate c.target_text, store)) := by
  constructor
  · intro tr hdict htr0
    have he : existingTranslation dicts store (sl ++ "-" ++ tl) st sl tl =
        Option.some tr := by
      unfold existingTranslation
      rw [hdict]
      rw [if_pos (by simp [truthy, htr0])]
    unfold contribute
    rw [hst, htt, hsl, htl]
    unfold contributeCore
    rw [if_neg (by push_neg; exact ⟨hst0, htt0⟩),
      if_neg (by push_neg; exact ⟨hsl0, htl0⟩), he,
      if_pos (by simp [truthy, htr0])]
    rfl
  · intro c hdict hval hc0
    have he : existingTranslation dicts store (sl ++ "-" ++ tl) st sl tl =
        Option.some c.target_text := by
      unfold existingTranslation
      rw [if_neg (by rw [hdict]; exact Bool.false_ne_true), hval]
    unfold contribute
    rw [hst, htt, hsl, htl]
    unfold contributeCore
    rw [if_neg (by push_neg; exact ⟨hst0, htt0⟩),
      if_neg (by push_neg; exact ⟨hsl0, htl0⟩), he,
      if_pos (by simp [truthy, hc0])]
    rfl

theorem duplicate_rejected_witness :
    (contribute [("en-fr", [("hello", "bonjour")])] ⟨[], []⟩ "id1" "t1"
        " Hello" "salut" "en" "fr" "" "" =
      (ContributeResult.duplicate "bonjour", ⟨[], []⟩)) ∧
    (contribute [("en-fr", [("hello", "bonjour")])]
        ⟨[("id0", ⟨"id0", "cat", "chat", "en", "fr", "", "", "validated",
          "t0", "t0", 0, false⟩)], []⟩ "id1" "t1" "cat" "minou" "en" "fr"
        "" "" =
      (ContributeResult.duplicate "chat",
        ⟨[("id0", ⟨"id0", "cat", "chat", "en", "fr", "", "", "validated",
          "t0", "t0", 0, false⟩)], []⟩)) :=
  ⟨(duplicate_rejected _ _ "id1" "t1" " Hello" "salut" "en" "fr" "" ""
      "hello" "salut" "en" "fr" (by decide) (by decide) (by decide)
      (by decide) (by decide) (by decide) (by decide) (by decide)).1
      "bonjour" (by decide) (by decide),
   (duplicate_rejected _ _ "id1" "t1" "cat" "minou" "en" "fr" "" ""
      "cat" "minou" "en" "fr" (by decide) (by decide) (by decide)
      (by decide) (by decide) (by decide) (by decide) (by decide)).2
      ⟨"id0", "cat", "chat", "en", "fr", "", "", "validated", "t0", "t0",
        0, false⟩ (by decide) (by decide) (by decide)⟩

/-- C4: a contribution missing from the dictionary bucket and with no
validated store record is accepted and written, even when an identical
pending contribution already exists in the store. -/
theorem pending_duplicate_accepted (dicts : Dicts) (store : Store)
    (cid timestamp sourceText targetText sourceLanguage targetLanguage
      sourceExample targetExample st tt sl tl se te : String)
    (hst : stripLower sourceText = st) (htt : pyStrip targetText = tt)
    (hsl : lowerStrip sourceLanguage = sl)
    (htl : lowerStrip targetLanguage = tl)
    (hse : pyStrip sourceExample = se) (hte : pyStrip targetExample = te)
    (hst0 : st ≠ "") (htt0 : tt ≠ "") (hsl0 : sl ≠ "") (htl0 : tl ≠ "")
    (hdict : dictCheck dicts (sl ++ "-" ++ tl) st = Option.none)
    (hval : validatedQuery store st sl tl = Option.none)
    (hpend : ∃ q ∈ store.contributions, q.2.source_text = st ∧
      q.2.source_language = sl ∧ q.2.target_language = tl ∧
      q.2.status = "pending") :
    (contribute dicts store cid timestamp sourceText targetText
        sourceLanguage targetLanguage sourceExample targetExample).1 =
      ContributeResult.success cid "pending" (sl ++ "-" ++ tl) ∧
    lookupA (Prod.snd (contribute dicts store cid timestamp sourceText
        targetText sourceLanguage targetLanguage sourceExample
        targetExample)).contributions cid =
      Option.some (mkContribution cid timestamp st tt sl tl se te) := by
  have he : existingTranslation dicts store (sl ++ "-" ++ tl) st sl tl =
      Option.none := by
    unfold existingTranslation
    rw [hdict]
    rw [if_neg (by simp [truthy]), hval]
  unfold contribute
  rw [hst, htt, hsl, htl, hse, hte]
  unfold contributeCore
  rw [if_neg (by push_neg; exact ⟨hst0, htt0⟩),
    if_neg (by push_neg; exact ⟨hsl0, htl0⟩), he,
    if_neg (by simp [truthy])]
  constructor
  · rfl
  · dsimp only
    rw [contribute_writes_contributions]
    exact lookupA_setA_self store.contributions cid _

theorem pending_duplicate_accepted_witness :
    (0 : Nat) = 0 ∧
    ((contribute [("en-fr", [("hello", "bonjour")])]
        ⟨[("id0", ⟨"id0", "cat", "chat", "en", "fr", "", "", "pending",
          "t0", "t0", 0, false⟩)], []⟩ "id1" "t1" "cat" "chat" "en" "fr"
        "" "").1 =
      ContributeResult.success "id1" "pending" "en-fr" ∧
    lookupA (Prod.snd (contribute [("en-fr", [("hello", "bonjour")])]
        ⟨[("id0", ⟨"id0", "cat", "chat", "en", "fr", "", "", "pending",
          "t0", "t0", 0, false⟩)], []⟩ "id1" "t1" "cat" "chat" "en" "fr"
        "" "")).contributions "id1" =
      Option.some (mkContribution "id1" "t1" "cat" "chat" "en" "fr" "" "")) :=
  ⟨rfl,
    pending_duplicate_accepted _ _ "id1" "t1" "cat" "chat" "en" "fr" "" ""
      "cat" "chat" "en" "fr" "" "" (by decide) (by decide) (by decide)
      (by decide) (by decide) (by decide) (by decide) (by decide)
      (by decide) (by decide) (by decide) (by decide)
      ⟨("id0", ⟨"id0", "cat", "chat", "en", "fr", "", "", "pending", "t0",
        "t0", 0, false⟩), by decide, by decide, by decide, by decide,
        by decide⟩⟩

/-- C10: an empty-string dictionary translation is falsy, so it does not
by itself trigger the duplicate rejection: with no validated store record
the contribution is accepted and written although the source text is a
dictionary key. -/
theorem empty_dict_translation_not_duplicate (dicts : Dicts) (store : Store)
    (cid timestamp sourceText targetText sourceLanguage targetLanguage
      sourceExample targetExample st tt sl tl se te : String)
    (d : List (String × String))
    (hst : stripLower sourceText = st) (htt : pyStrip targetText = tt)
    (hsl : lowerStrip sourceLanguage = sl)
    (htl : lowerStrip targetLanguage = tl)
    (hse : pyStrip sourceExample = se) (hte : pyStrip targetExample = te)
    (hst0 : st ≠ "") (htt0 : tt ≠ "") (hsl0 : sl ≠ "") (htl0 : tl ≠ "")
    (hd : lookupA dicts (sl ++ "-" ++ tl) = Option.some d)
    (hk : lookupA d st = Option.some "")
    (hval : validatedQuery store st sl tl = Option.none) :
    (contribute dicts store cid timestamp sourceText targetText
        sourceLanguage targetLanguage sourceExample targetExample).1 =
      ContributeResult.success cid "pending" (sl ++ "-" ++ tl) ∧
    lookupA (Prod.snd (contribute dicts store cid timestamp sourceText
        targetText sourceLanguage targetLanguage sourceExample
        targetExample)).contributions cid =
      Option.some (mkContribution cid timestamp st tt sl tl se te) := by
  have hdict : dictCheck dicts (sl ++ "-" ++ tl) st = Option.some "" := by
    unfold dictCheck
    rw [hd]
    exact hk
  have he : existingTranslation dicts store (sl ++ "-" ++ tl) st sl tl =
      Option.some "" := by
    unfold existingTranslation
    rw [hdict]
    rw [if_neg (by simp [truthy]), hval]
  unfold contribute
  rw [hst, htt, hsl, htl, hse, hte]
  unfold contributeCore
  rw [if_neg (by push_neg; exact ⟨hst0, htt0⟩),
    if_neg (by push_neg; exact ⟨hsl0, htl0⟩), he,
    if_neg (by simp [truthy])]
  constructor
  · rfl
  · dsimp only
    rw [contribute_writes_contributions]
    exact lookupA_setA_self store.contributions cid _

theorem empty_dict_translation_not_duplicate_witness :
    (1 : Nat) = 1 ∧
    ((contribute [("en-fr", [("dog", "")])] ⟨[], []⟩ "id1" "t1" "dog"
        "chien" "en" "fr" "" "").1 =
      ContributeResult.success "id1" "pending" "en-fr" ∧
    lookupA (Prod.snd (contribute [("en-fr", [("dog", "")])] ⟨[], []⟩ "id1"
        "t1" "dog" "chien" "en" "fr" "" "")).contributions "id1" =
      Option.some (mkContribution "id1" "t1" "dog" "chien" "en" "fr" "" "")) :=
  ⟨rfl,
    empty_dict_translation_not_duplicate _ _ "id1" "t1" "dog" "chien" "en"
      "fr" "" "" "dog" "chien" "en" "fr" "" "" [("dog", "")] (by decide)
      (by decide) (by decide) (by decide) (by decide) (by decide)
      (by decide) (by decide) (by decide) (by decide) (by decide)
      (by decide) (by decide)⟩

theorem writeContribution_language_pairs (store : Store) (cid : String)
    (c : Contribution) :
    (writeContribution store cid c).language_pairs = store.language_pairs :=
  rfl

theorem ensureLangPair_language_pairs (store : Store)
    (k sl tl ts : String) :
    (ensureLangPair store k sl tl ts).language_pairs =
      if (lookupA store.language_pairs k).isSome then store.language_pairs
      else setA store.language_pairs k (newLangPairDoc sl tl ts) := by
  unfold ensureLangPair
  split
  · rfl
  · rfl

theorem incrementCounters_language_pairs (store : Store) (k ts : String) :
    (incrementCounters store k ts).language_pairs =
      updA store.language_pairs k (bumpCounters ts) := rfl

theorem writeTranslationCopy_language_pairs (store : Store)
    (k cid : String) (c : Contribution) :
    (writeTranslationCopy store k cid c).language_pairs =
      updA store.language_pairs k (addTranslationCopy cid c) := rfl

theorem contributeCore_cases (dicts : Dicts) (store : Store)
    (cid ts a b c d e f : String) :
    (∃ msg, contributeCore dicts store cid ts a b c d e f =
      (ContributeResult.validationError msg, store)) ∨
    (∃ tr, contributeCore dicts store cid ts a b c d e f =
      (ContributeResult.duplicate tr, store)) ∨
    contributeCore dicts store cid ts a b c d e f =
      (ContributeResult.success cid "pending" (c ++ "-" ++ d),
        writeTranslationCopy (incrementCounters (ensureLangPair
          (writeContribution store cid (mkContribution cid ts a b c d e f))
          (c ++ "-" ++ d) c d ts) (c ++ "-" ++ d) ts) (c ++ "-" ++ d) cid
          (mkContribution cid ts a b c d e f)) := by
  unfold contributeCore
  by_cases h1 : a = "" ∨ b = ""
  · rw [if_pos h1]
    exact Or.inl ⟨_, rfl⟩
  · rw [if_neg h1]
    by_cases h2 : c = "" ∨ d = ""
    · rw [if_pos h2]
      exact Or.inl ⟨_, rfl⟩
    · rw [if_neg h2]
      by_cases h3 : truthy (existingTranslation dicts store
          (c ++ "-" ++ d) a c d) = true
      · rw [if_pos h3]
        exact Or.inr (Or.inl ⟨_, rfl⟩)
      · rw [if_neg h3]
        exact Or.inr (Or.inr rfl)

theorem aggInv_updA {l : List (String × LangPairDoc)} {k : String}
    {f : LangPairDoc → LangPairDoc}
    (hl : ∀ q ∈ l, q.2.pending_contributions ≤ q.2.total_contributions)
    (hf : ∀ x, x.pending_contributions ≤ x.total_contributions →
      (f x).pending_contributions ≤ (f x).total_contributions) :
    ∀ p ∈ updA l k f,
      p.2.pending_contributions ≤ p.2.total_contributions := by
  intro p hp
  obtain ⟨q, hq, rfl⟩ := List.mem_map.mp hp
  by_cases hqk : (q.1 == k) = true
  · rw [if_pos hqk]
    exact hf q.2 (hl q hq)
  · rw [if_neg hqk]
    exact hl q hq

theorem aggInv_setA_zero {l : List (String × LangPairDoc)}
    (k sl tl ts : String)
    (hl : ∀ q ∈ l, q.2.pending_contributions ≤ q.2.total_contributions) :
    ∀ p ∈ setA l k (newLangPairDoc sl tl ts),
      p.2.pending_contributions ≤ p.2.total_contributions := by
  intro p hp
  unfold setA at hp
  by_cases hs : (l.find? (fun p => p.1 == k)).isSome
  · rw [if_pos hs] at hp
    obtain ⟨q, hq, rfl⟩ := List.mem_map.mp hp
    by_cases hqk : (q.1 == k) = true
    · rw [if_pos hqk]
      exact Int.le_refl 0
    · rw [if_neg hqk]
      exact hl q hq
  · rw [if_neg hs] at hp
    rcases List.mem_append.mp hp with h | h
    · exact hl p h
    · have hep : p = (k, newLangPairDoc sl tl ts) := by
        simpa using h
      rw [hep]
      exact Int.le_refl 0

theorem aggInv_writes (store : Store) (k sl tl ts cid : String)
    (c : Contribution) (hInv : aggInv store) :
    aggInv (writeTranslationCopy (incrementCounters
      (ensureLangPair (writeContribution store cid c) k sl tl ts) k ts)
      k cid c) := by
  have h1 : ∀ q ∈ (ensureLangPair (writeContribution store cid c)
      k sl tl ts).language_pairs,
      q.2.pending_contributions ≤ q.2.total_contributions := by
    rw [ensureLangPair_language_pairs, writeContribution_language_pairs]
    split
    · exact hInv
    · exact aggInv_setA_zero k sl tl ts hInv
  intro p hp
  rw [writeTranslationCopy_language_pairs,
    incrementCounters_language_pairs] at hp
  refine aggInv_updA (aggInv_updA h1 ?_) ?_ p hp
  · intro x hx
    unfold bumpCounters
    dsimp only
    omega
  · intro x hx
    unfold addTranslationCopy
    exact hx

theorem aggTotals_writes (store : Store) (k sl tl ts cid : String)
    (c : Contribution) :
    aggTotals (writeTranslationCopy (incrementCounters
      (ensureLangPair (writeContribution store cid c) k sl tl ts) k ts)
      k cid c) k =
      ((aggTotals store k).1 + 1, (aggTotals store k).2.1 + 1,
        (aggTotals store k).2.2) := by
  unfold aggTotals
  rw [writeTranslationCopy_language_pairs, lookupA_updA_self,
    incrementCounters_language_pairs, lookupA_updA_self,
    ensureLangPair_language_pairs, writeContribution_language_pairs]
  by_cases hs : (lookupA store.language_pairs k).isSome
  · rw [if_pos hs]
    obtain ⟨lp, hlp⟩ := Option.isSome_iff_exists.mp hs
    rw [hlp]
    rfl
  · rw [if_neg hs, lookupA_setA_self,
      Option.not_isSome_iff_eq_none.mp hs]
    rfl

/-- C6: the aggregate invariant `total ≥ pending` is preserved by every
contribution; the aggregate is created with zeroed counters on the first
contribution to an unseen pair, and every successful contribution
increments `total_contributions` and `pending_contributions` together by
exactly 1 while never touching `validated_contributions`. -/
theorem aggregate_counters (dicts : Dicts) (store : Store)
    (cid timestamp sourceText targetText sourceLanguage targetLanguage
      sourceExample targetExample : String)
    (hInv : aggInv store) :
    aggInv (contribute dicts store cid timestamp sourceText targetText
      sourceLanguage targetLanguage sourceExample targetExample).2 ∧
    (∀ rid rst rk,
      (contribute dicts store cid timestamp sourceText targetText
        sourceLanguage targetLanguage sourceExample targetExample).1 =
        ContributeResult.success rid rst rk →
      aggTotals (contribute dicts store cid timestamp sourceText targetText
          sourceLanguage targetLanguage sourceExample targetExample).2 rk =
        ((aggTotals store rk).1 + 1, (aggTotals store rk).2.1 + 1,
          (aggTotals store rk).2.2)) := by
  unfold contribute
  rcases contributeCore_cases dicts store cid timestamp
      (stripLower sourceText) (pyStrip targetText)
      (lowerStrip sourceLanguage) (lowerStrip targetLanguage)
      (pyStrip sourceExample) (pyStrip targetExample) with
    ⟨msg, heq⟩ | ⟨tr, heq⟩ | heq
  · rw [heq]
    refine ⟨hInv, ?_⟩
    intro rid rst rk h
    exact absurd h (by simp)
  · rw [heq]
    refine ⟨hInv, ?_⟩
    intro rid rst rk h
    exact absurd h (by simp)
  · rw [heq]
    constructor
    · exact aggInv_writes store _ _ _ _ _ _ hInv
    · intro rid rst rk h
      have hrk : rk = lowerStrip sourceLanguage ++ "-" ++
          lowerStrip targetLanguage := by
        have h2 := h
        simp only [ContributeResult.success.injEq] at h2
        exact h2.2.2.symm
      rw [hrk]
      exact aggTotals_writes store _ _ _ _ _ _

theorem aggregate_counters_witness :
    aggInv (⟨[], []⟩ : Store) ∧
    (aggInv (contribute [("en-fr", [("hello", "bonjour")])] ⟨[], []⟩
      "id1" "t1" "sun" "soleil" "en" "fr" "" "").2 ∧
    (∀ rid rst rk,
      (contribute [("en-fr", [("hello", "bonjour")])] ⟨[], []⟩
        "id1" "t1" "sun" "soleil" "en" "fr" "" "").1 =
        ContributeResult.success rid rst rk →
      aggTotals (contribute [("en-fr", [("hello", "bonjour")])] ⟨[], []⟩
          "id1" "t1" "sun" "soleil" "en" "fr" "" "").2 rk =
        ((aggTotals (⟨[], []⟩ : Store) rk).1 + 1,
          (aggTotals (⟨[], []⟩ : Store) rk).2.1 + 1,
          (aggTotals (⟨[], []⟩ : Store) rk).2.2))) :=
  ⟨by simp [aggInv],
    aggregate_counters [("en-fr", [("hello", "bonjour")])] ⟨[], []⟩
      "id1" "t1" "sun" "soleil" "en" "fr" "" "" (by simp [aggInv])⟩

theorem updA_updA {α : Type} (l : List (String × α)) (k : String)
    (f g : α → α) :
    updA (updA l k f) k g = updA l k (fun x => g (f x)) := by
  unfold updA
  rw [List.map_map]
  apply List.map_congr_left
  intro p _
  by_cases hpk : (p.1 == k) = true
  · have hp : p.1 = k := eq_of_beq hpk
    simp [hp]
  · have hp : ¬p.1 = k := by simpa using hpk
    simp [hp]

theorem sync_writes_core (contr : List (String × Contribution))
    (L0 L1 : List (String × LangPairDoc)) (k ts cid : String)
    (c : Contribution) (hk : pairKey c = k) (hid : c.id = cid)
    (hS : Sync ⟨contr, L0⟩)
    (hFresh : lookupA contr cid = Option.none)
    (hL1 : L1 = L0 ∧ (lookupA L0 k).isSome = true ∨
      lookupA L0 k = Option.none ∧
        ∃ z : LangPairDoc, z.translations = [] ∧ L1 = L0 ++ [(k, z)]) :
    Sync ⟨contr ++ [(cid, c)],
      updA L1 k (fun x => addTranslationCopy cid c (bumpCounters ts x))⟩ := by
  obtain ⟨hS1, hS2⟩ := hS
  dsimp only at hS1 hS2
  have hKeyNe : ∀ r ∈ contr, r.1 ≠ cid := fun r hr =>
    lookupA_eq_none_iff.mp hFresh r hr
  have hFreshSub : ∀ q ∈ L0, lookupA q.2.translations cid = Option.none := by
    intro q hq
    rcases hh : lookupA q.2.translations cid with _ | r2
    · rfl
    · have hmem := mem_of_lookupA_eq_some hh
      have h3 := (hS1 q hq (cid, r2) hmem).1
      rw [hFresh] at h3
      cases h3
  constructor
  · intro q hq r hr
    dsimp only at hq ⊢
    obtain ⟨q0, hq0, rfl⟩ := List.mem_map.mp hq
    have hq0L0 : q0 ∈ L0 ∨ (lookupA L0 k = Option.none ∧
        ∃ z : LangPairDoc, z.translations = [] ∧ q0 = (k, z)) := by
      rcases hL1 with ⟨hEq, _⟩ | ⟨hNone, z, hz, hEq⟩
      · left
        rw [← hEq]
        exact hq0
      · rw [hEq] at hq0
        rcases List.mem_append.mp hq0 with h | h
        · left
          exact h
        · right
          exact ⟨hNone, z, hz, by simpa using h⟩
    by_cases hqk : (q0.1 == k) = true
    · rw [if_pos hqk] at hr ⊢
      dsimp only at hr ⊢
      have htr : LangPairDoc.translations (addTranslationCopy cid c
          (bumpCounters ts q0.2)) = setA q0.2.translations cid c := rfl
      rw [htr] at hr
      have hfresh2 : lookupA q0.2.translations cid = Option.none := by
        rcases hq0L0 with h | ⟨_, z, hz, hzq⟩
        · exact hFreshSub q0 h
        · rw [hzq]
          dsimp only
          rw [hz]
          rfl
      rw [setA_of_lookupA_none _ hfresh2] at hr
      rcases List.mem_append.mp hr with hrold | hrnew
      · have hq0L0m : q0 ∈ L0 := by
          rcases hq0L0 with h | ⟨_, z, hz, hzq⟩
          · exact h
          · rw [hzq] at hrold
            dsimp only at hrold
            rw [hz] at hrold
            cases hrold
        obtain ⟨ho1, ho2, ho3⟩ := hS1 q0 hq0L0m r hrold
        exact ⟨lookupA_append_left _ ho1, ho2, ho3⟩
      · have hre : r = (cid, c) := by simpa using hrnew
        rw [hre]
        refine ⟨?_, hid.symm, ?_⟩
        · rw [lookupA_append_right _ hFresh, lookupA_cons, if_pos rfl]
        · dsimp only
          rw [hk]
          exact eq_of_beq hqk
    · rw [if_neg hqk] at hr ⊢
      have hq0L0m : q0 ∈ L0 := by
        rcases hq0L0 with h | ⟨_, z, hz, hzq⟩
        · exact h
        · exfalso
          apply hqk
          rw [hzq]
          exact beq_self_eq_true k
      obtain ⟨ho1, ho2, ho3⟩ := hS1 q0 hq0L0m r hr
      exact ⟨lookupA_append_left _ ho1, ho2, ho3⟩
  · intro r hr
    dsimp only at hr ⊢
    rcases List.mem_append.mp hr with hrold | hrnew
    · obtain ⟨hid2, lp, hlp, hlpt⟩ := hS2 r hrold
      refine ⟨hid2, ?_⟩
      by_cases hpk : pairKey r.2 = k
      · have hL1e : L1 = L0 := by
          rcases hL1 with ⟨hEq, _⟩ | ⟨hNone, _, _, _⟩
          · exact hEq
          · rw [hpk, hNone] at hlp
            cases hlp
        rw [hpk] at hlp ⊢
        refine ⟨addTranslationCopy cid c (bumpCounters ts lp), ?_, ?_⟩
        · rw [lookupA_updA_self, hL1e, hlp]
          rfl
        · have htr : LangPairDoc.translations (addTranslationCopy cid c
              (bumpCounters ts lp)) = setA lp.translations cid c := rfl
          rw [htr, lookupA_setA_ne _ _ _ (hKeyNe r hrold), hlpt]
      · refine ⟨lp, ?_, hlpt⟩
        rw [lookupA_updA_ne _ _ _ hpk]
        rcases hL1 with ⟨hEq, _⟩ | ⟨_, z, hz, hEq⟩
        · rw [hEq]
          exact hlp
        · rw [hEq]
          exact lookupA_append_left _ hlp
    · have hre : r = (cid, c) := by simpa using hrnew
      rw [hre]
      refine ⟨hid.symm, ?_⟩
      dsimp only
      rw [hk, lookupA_updA_self]
      rcases hL1 with ⟨hEq, hSome⟩ | ⟨hNone, z, hz, hEq⟩
      · obtain ⟨lp0, hlp0⟩ := Option.isSome_iff_exists.mp hSome
        rw [hEq, hlp0]
        refine ⟨addTranslationCopy cid c (bumpCounters ts lp0), rfl, ?_⟩
        have htr : LangPairDoc.translations (addTranslationCopy cid c
            (bumpCounters ts lp0)) = setA lp0.translations cid c := rfl
        rw [htr, lookupA_setA_self]
      · rw [hEq, lookupA_append_right _ hNone, lookupA_cons, if_pos rfl]
        refine ⟨addTranslationCopy cid c (bumpCounters ts z), rfl, ?_⟩
        have htr : LangPairDoc.translations (addTranslationCopy cid c
            (bumpCounters ts z)) = setA z.translations cid c := rfl
        rw [htr, lookupA_setA_self]

theorem sync_writes (store : Store) (k sl tl ts cid : String)
    (c : Contribution) (hk : pairKey c = k) (hid : c.id = cid)
    (hSync : Sync store)
    (hFresh : lookupA store.contributions cid = Option.none) :
    Sync (writeTranslationCopy (incrementCounters
      (ensureLangPair (writeContribution store cid c) k sl tl ts) k ts)
      k cid c) := by
  have hContr : Store.contributions (writeTranslationCopy
      (incrementCounters (ensureLangPair (writeContribution store cid c)
        k sl tl ts) k ts) k cid c) =
      store.contributions ++ [(cid, c)] := by
    rw [contribute_writes_contributions]
    exact setA_of_lookupA_none c hFresh
  have hLP : Store.language_pairs (writeTranslationCopy
      (incrementCounters (ensureLangPair (writeContribution store cid c)
        k sl tl ts) k ts) k cid c) =
      updA (Store.language_pairs (ensureLangPair
        (writeContribution store cid c) k sl tl ts)) k
        (fun x => addTranslationCopy cid c (bumpCounters ts x)) := by
    rw [writeTranslationCopy_language_pairs,
      incrementCounters_language_pairs, updA_updA]
  have hL1 : Store.language_pairs (ensureLangPair
      (writeContribution store cid c) k sl tl ts) =
        store.language_pairs ∧
        (lookupA store.language_pairs k).isSome = true ∨
      lookupA store.language_pairs k = Option.none ∧
        ∃ z : LangPairDoc, z.translations = [] ∧
          Store.language_pairs (ensureLangPair
            (writeContribution store cid c) k sl tl ts) =
            store.language_pairs ++ [(k, z)] := by
    rw [ensureLangPair_language_pairs, writeContribution_language_pairs]
    by_cases hs : (lookupA store.language_pairs k).isSome
    · left
      rw [if_pos hs]
      exact ⟨rfl, hs⟩
    · right
      have hn := Option.not_isSome_iff_eq_none.mp hs
      refine ⟨hn, newLangPairDoc sl tl ts, rfl, ?_⟩
      rw [if_neg hs]
      exact setA_of_lookupA_none _ hn
  have hcore := sync_writes_core store.contributions store.language_pairs
    (Store.language_pairs (ensureLangPair (writeContribution store cid c)
      k sl tl ts)) k ts cid c hk hid hSync hFresh hL1
  unfold Sync at hcore ⊢
  dsimp only at hcore
  rw [hContr, hLP]
  exact hcore

/-- C8: contribution ingestion preserves the primary/denormalized-copy
consistency invariant, and a successful contribution writes the same
record, under the same id, to both the primary collection and the
pair-scoped subcollection within the same operation. -/
theorem denormalized_copy_sync (dicts : Dicts) (store : Store)
    (cid timestamp sourceText targetText sourceLanguage targetLanguage
      sourceExample targetExample : String)
    (hSync : Sync store)
    (hFresh : lookupA store.contributions cid = Option.none) :
    Sync (contribute dicts store cid timestamp sourceText targetText
      sourceLanguage targetLanguage sourceExample targetExample).2 ∧
    (∀ rid rst rk,
      (contribute dicts store cid timestamp sourceText targetText
        sourceLanguage targetLanguage sourceExample targetExample).1 =
        ContributeResult.success rid rst rk →
      lookupA (Prod.snd (contribute dicts store cid timestamp sourceText
          targetText sourceLanguage targetLanguage sourceExample
          targetExample)).contributions cid =
        Option.some (mkContribution cid timestamp (stripLower sourceText)
          (pyStrip targetText) (lowerStrip sourceLanguage)
          (lowerStrip targetLanguage) (pyStrip sourceExample)
          (pyStrip targetExample)) ∧
      ∃ lp, lookupA (Prod.snd (contribute dicts store cid timestamp
          sourceText targetText sourceLanguage targetLanguage sourceExample
          targetExample)).language_pairs rk = Option.some lp ∧
        lookupA lp.translations cid =
          Option.some (mkContribution cid timestamp (stripLower sourceText)
            (pyStrip targetText) (lowerStrip sourceLanguage)
            (lowerStrip targetLanguage) (pyStrip sourceExample)
            (pyStrip targetExample))) := by
  unfold contribute
  rcases contributeCore_cases dicts store cid timestamp
      (stripLower sourceText) (pyStrip targetText)
      (lowerStrip sourceLanguage) (lowerStrip targetLanguage)
      (pyStrip sourceExample) (pyStrip targetExample) with
    ⟨msg, heq⟩ | ⟨tr, heq⟩ | heq
  · rw [heq]
    exact ⟨hSync, fun rid rst rk h => absurd h (by simp)⟩
  · rw [heq]
    exact ⟨hSync, fun rid rst rk h => absurd h (by simp)⟩
  · rw [heq]
    have hsw := sync_writes store
      (lowerStrip sourceLanguage ++ "-" ++ lowerStrip targetLanguage)
      (lowerStrip sourceLanguage) (lowerStrip targetLanguage) timestamp cid
      (mkContribution cid timestamp (stripLower sourceText)
        (pyStrip targetText) (lowerStrip sourceLanguage)
        (lowerStrip targetLanguage) (pyStrip sourceExample)
        (pyStrip targetExample)) rfl rfl hSync hFresh
    refine ⟨hsw, ?_⟩
    intro rid rst rk h
    have hrk : rk = lowerStrip sourceLanguage ++ "-" ++
        lowerStrip targetLanguage := by
      simp only [ContributeResult.success.injEq] at h
      exact h.2.2.symm
    have hContr : Store.contributions (writeTranslationCopy
        (incrementCounters (ensureLangPair (writeContribution store cid
          (mkContribution cid timestamp (stripLower sourceText)
            (pyStrip targetText) (lowerStrip sourceLanguage)
            (lowerStrip targetLanguage) (pyStrip sourceExample)
            (pyStrip targetExample)))
          (lowerStrip sourceLanguage ++ "-" ++ lowerStrip targetLanguage)
          (lowerStrip sourceLanguage) (lowerStrip targetLanguage)
          timestamp)
          (lowerStrip sourceLanguage ++ "-" ++ lowerStrip targetLanguage)
          timestamp)
        (lowerStrip sourceLanguage ++ "-" ++ lowerStrip targetLanguage)
        cid (mkContribution cid timestamp (stripLower sourceText)
          (pyStrip targetText) (lowerStrip sourceLanguage)
          (lowerStrip targetLanguage) (pyStrip sourceExample)
          (pyStrip targetExample))) =
        store.contributions ++ [(cid, mkContribution cid timestamp
          (stripLower sourceText) (pyStrip targetText)
          (lowerStrip sourceLanguage) (lowerStrip targetLanguage)
          (pyStrip sourceExample) (pyStrip targetExample))] := by
      rw [contribute_writes_contributions]
      exact setA_of_lookupA_none _ hFresh
    dsimp only
    constructor
    · rw [hContr, lookupA_append_right _ hFresh, lookupA_cons, if_pos rfl]
    · have hmem : (cid, mkContribution cid timestamp
          (stripLower sourceText) (pyStrip targetText)
          (lowerStrip sourceLanguage) (lowerStrip targetLanguage)
          (pyStrip sourceExample) (pyStrip targetExample)) ∈
          Store.contributions (writeTranslationCopy
            (incrementCounters (ensureLangPair (writeContribution store cid
              (mkContribution cid timestamp (stripLower sourceText)
                (pyStrip targetText) (lowerStrip sourceLanguage)
                (lowerStrip targetLanguage) (pyStrip sourceExample)
                (pyStrip targetExample)))
              (lowerStrip sourceLanguage ++ "-" ++
                lowerStrip targetLanguage)
              (lowerStrip sourceLanguage) (lowerStrip targetLanguage)
              timestamp)
              (lowerStrip sourceLanguage ++ "-" ++
                lowerStrip targetLanguage) timestamp)
            (lowerStrip sourceLanguage ++ "-" ++ lowerStrip targetLanguage)
            cid (mkContribution cid timestamp (stripLower sourceText)
              (pyStrip targetText) (lowerStrip sourceLanguage)
              (lowerStrip targetLanguage) (pyStrip sourceExample)
              (pyStrip targetExample))) := by
        rw [hContr]
        exact List.mem_append_right _ (List.mem_singleton.mpr rfl)
      obtain ⟨hid2, lp, hlk, hlt⟩ := hsw.2 _ hmem
      rw [hrk]
      exact ⟨lp, hlk, hlt⟩

theorem denormalized_copy_sync_witness :
    Sync (⟨[], []⟩ : Store) ∧
    (Sync (contribute [("en-fr", [("hello", "bonjour")])] ⟨[], []⟩ "id1"
      "t1" "moon" "lune" "en" "fr" "" "").2 ∧
    (∀ rid rst rk,
      (contribute [("en-fr", [("hello", "bonjour")])] ⟨[], []⟩ "id1" "t1"
        "moon" "lune" "en" "fr" "" "").1 =
        ContributeResult.success rid rst rk →
      lookupA (Store.contributions (Prod.snd (contribute
          [("en-fr", [("hello", "bonjour")])] ⟨[], []⟩ "id1" "t1" "moon"
          "lune" "en" "fr" "" ""))) "id1" =
        Option.some (mkContribution "id1" "t1" (stripLower "moon")
          (pyStrip "lune") (lowerStrip "en") (lowerStrip "fr")
          (pyStrip "") (pyStrip "")) ∧
      ∃ lp, lookupA (Prod.snd (contribute
          [("en-fr", [("hello", "bonjour")])] ⟨[], []⟩ "id1" "t1" "moon"
          "lune" "en" "fr" "" "")).language_pairs rk = Option.some lp ∧
        lookupA lp.translations "id1" =
          Option.some (mkContribution "id1" "t1" (stripLower "moon")
            (pyStrip "lune") (lowerStrip "en") (lowerStrip "fr")
            (pyStrip "") (pyStrip "")))) := by
  have h0 : Sync (⟨[], []⟩ : Store) := by
    constructor
    · intro q hq
      simp at hq
    · intro r hr
      simp at hr
  exact ⟨h0, denormalized_copy_sync [("en-fr", [("hello", "bonjour")])]
    ⟨[], []⟩ "id1" "t1" "moon" "lune" "en" "fr" "" "" h0 rfl⟩

theorem getIdx_append_cons {α : Type} (pre : List α) (x : α)
    (rest : List α) : (pre ++ x :: rest)[pre.length]? = Option.some x := by
  induction pre with
  | nil => simp
  | cons a t ih => simpa using ih

theorem set_append_cons {α : Type} (pre : List α) (x y : α)
    (rest : List α) :
    (pre ++ x :: rest).set pre.length y = pre ++ y :: rest := by
  induction pre with
  | nil => simp
  | cons a t ih => simp [ih]

theorem runSched_cons (i : Nat) (rest : List Nat) (s : AggDoc)
    (ts : List TPhase) (t : TPhase) (h : ts[i]? = Option.some t) :
    runSched (i :: rest) s ts =
      runSched rest (threadStep s t).1 (ts.set i (threadStep s t).2) := by
  conv_lhs => unfold runSched
  rw [h]

theorem runSched_thread (pre rest : List TPhase) (sched : List Nat)
    (s : AggDoc) :
    runSched (pre.length :: pre.length :: pre.length :: sched) s
      (pre ++ TPhase.start :: rest) =
    runSched sched (runThreadFully s) (pre ++ TPhase.done :: rest) := by
  cases s with
  | none =>
    rw [runSched_cons _ _ _ _ _ (getIdx_append_cons pre _ rest)]
    dsimp only [threadStep, Option.isSome]
    rw [set_append_cons]
    rw [runSched_cons _ _ _ _ _ (getIdx_append_cons pre _ rest)]
    dsimp only [threadStep]
    rw [set_append_cons]
    rw [runSched_cons _ _ _ _ _ (getIdx_append_cons pre _ rest)]
    dsimp only [threadStep, Option.map, runThreadFully]
    rw [set_append_cons]
    norm_num
  | some p =>
    rw [runSched_cons _ _ _ _ _ (getIdx_append_cons pre _ rest)]
    dsimp only [threadStep, Option.isSome]
    rw [set_append_cons]
    rw [runSched_cons _ _ _ _ _ (getIdx_append_cons pre _ rest)]
    dsimp only [threadStep]
    rw [set_append_cons]
    rw [runSched_cons _ _ _ _ _ (getIdx_append_cons pre _ rest)]
    dsimp only [threadStep, Option.map, runThreadFully]
    rw [set_append_cons]

theorem runSched_seqAux (n : Nat) : ∀ (pre : List TPhase) (s : AggDoc),
    runSched (seqSchedAux pre.length n) s
      (pre ++ List.replicate n TPhase.start) =
    (iterFully n s, pre ++ List.replicate n TPhase.done) := by
  induction n with
  | zero =>
    intro pre s
    simp [seqSchedAux, runSched, iterFully]
  | succ m ih =>
    intro pre s
    rw [List.replicate_succ,
      show seqSchedAux pre.length (m + 1) = pre.length :: pre.length ::
        pre.length :: seqSchedAux (pre.length + 1) m from rfl,
      runSched_thread,
      show pre ++ TPhase.done :: List.replicate m TPhase.start =
        (pre ++ [TPhase.done]) ++ List.replicate m TPhase.start by simp,
      show pre.length + 1 = (pre ++ [TPhase.done]).length by simp,
      ih (pre ++ [TPhase.done]) (runThreadFully s)]
    rw [show iterFully (m + 1) s = iterFully m (runThreadFully s) from rfl,
      List.replicate_succ]
    simp

theorem iterFully_some (m : Nat) : ∀ a b : Int,
    iterFully m (Option.some (a, b)) =
      Option.some (a + (m : Int), b + (m : Int)) := by
  induction m with
  | zero =>
    intro a b
    simp [iterFully]
  | succ k ih =>
    intro a b
    rw [show iterFully (k + 1) (Option.some (a, b)) =
        iterFully k (runThreadFully (Option.some (a, b))) from rfl,
      show runThreadFully (Option.some (a, b)) =
        Option.some (a + 1, b + 1) from rfl,
      ih]
    simp only [Option.some.injEq, Prod.mk.injEq]
    constructor
    · push_cast
      ring
    · push_cast
      ring

/-- C7 counterexample: with two concurrent first-time contributions there
is a complete interleaving in which both requests pass the existence
check before either has created the document; the second `set` then
resets the counters already incremented by the first request, and the run
ends with total = pending = 1 instead of 2. -/
theorem concurrent_counter_claim_false : ¬ ConcurrentCounterClaim 2 := by
  intro h
  have h2 := h [0, 1, 0, 0, 1, 1] (by decide)
  have h3 : (runSched [0, 1, 0, 0, 1, 1] Option.none
      (List.replicate 2 TPhase.start)).1 = Option.some ((1 : Int), (1 : Int)) := by
    decide
  rw [h3] at h2
  exact absurd h2 (by decide)

/-- C7 amended: the atomic store-level increment keeps the counters
correct when the n first-time contributions do not interleave: the fully
serialized schedule completes all n requests and leaves exactly one
aggregate record with total = pending = n. The claim as stated fails for
genuinely interleaved runs because the existence-check-then-`set`
creation sequence is not atomic (the race §5 of the spec acknowledges). -/
theorem serialized_counter_correct (n : Nat) (h : 0 < n) :
    runSched (seqSched n) Option.none (List.replicate n TPhase.start) =
      (Option.some ((n : Int), (n : Int)), List.replicate n TPhase.done) := by
  have h0 := runSched_seqAux n [] Option.none
  simp only [List.nil_append, List.length_nil] at h0
  rw [seqSched, h0]
  obtain ⟨m, rfl⟩ := Nat.exists_eq_succ_of_ne_zero (Nat.pos_iff_ne_zero.mp h)
  rw [show iterFully (m + 1) Option.none =
      iterFully m (Option.some (1, 1)) from rfl, iterFully_some]
  simp only [Prod.mk.injEq, Option.some.injEq]
  refine ⟨⟨?_, ?_⟩, trivial⟩
  · push_cast
    ring
  · push_cast
    ring

theorem serialized_counter_correct_witness :
    0 < 3 ∧
    runSched (seqSched 3) Option.none (List.replicate 3 TPhase.start) =
      (Option.some ((3 : Int), (3 : Int)), List.replicate 3 TPhase.done) :=
  ⟨by decide, serialized_counter_correct 3 (by decide)⟩

end TransBackend
